import Mathlib

/-!
Verification development for the bounded request queue / dispatcher of the
equity-voice service, together with its settings normalizer and its
external-API error translator.

The definitions below are a shallow embedding of the JavaScript source:

* `VoiceConfig.initVoiceSettings` / `VoiceConfig.validateVoiceSettings`
  embed the settings defaulting and clamping logic of `voiceConfig.js`
  (the `default` record built from environment variables, then
  `{...default, ...settings}` followed by `Math.max(0, Math.min(1, _))`
  clamping and `Boolean(_)` coercion).
* `handleElevenLabsError` embeds the status-code to message translation of
  `VoiceProcessor.handleElevenLabsError`.
* `DispState` with `processQueue`, `queueRequest`, `settleRequest` and
  `fireTimer` embed the dispatcher of `VoiceProcessor`: `processQueue`
  dispatches at most one pending task per invocation when a concurrency
  slot is free, `queueRequest` appends a task and invokes `processQueue`
  once, the `finally` block of a settling task removes it from the active
  map and schedules exactly one deferred (100 ms) `processQueue` callback,
  modelled by `settleRequest` and `fireTimer`.

JavaScript numbers are modelled by `Rat` (every numeric constant involved
is exactly representable), object fields that may be absent by `Option`,
and the event-loop interleaving by an explicit event list folded over the
state with `step`.
-/

namespace EquityVoice

/-- A JavaScript value carried in an unknown settings field. -/
inductive JsValue where
  | num (q : Rat)
  | str (s : String)
  | bool (b : Bool)
  | null
  deriving DecidableEq, Repr

/-- The `voiceSettings.default` record of `VoiceConfig`. -/
structure VoiceSettingsDefault where
  stability : Rat
  similarityBoost : Rat
  style : Rat
  speakerBoost : Bool
  deriving DecidableEq, Repr

/-- JavaScript `parseFloat(env) || d`: an absent variable parses to `NaN`
(falsy) and `0` is falsy as well, so both fall back to `d`. -/
def jsNumOr (x : Option Rat) (d : Rat) : Rat :=
  match x with
  | none => d
  | some v => if v = 0 then d else v

/-- `VoiceConfig.initVoiceSettings` restricted to the `default` record:
`stability: parseFloat(process.env.DEFAULT_STABILITY) || 0.5`,
`similarityBoost: parseFloat(process.env.DEFAULT_SIMILARITY_BOOST) || 0.5`,
`style: parseFloat(process.env.DEFAULT_STYLE) || 0.0`,
`speakerBoost: process.env.DEFAULT_SPEAKER_BOOST === 'true'`. -/
def initVoiceSettings (envStability envSimilarity envStyle : Option Rat)
    (envSpeakerBoost : Option String) : VoiceSettingsDefault :=
  { stability := jsNumOr envStability (mkRat 1 2)
    similarityBoost := jsNumOr envSimilarity (mkRat 1 2)
    style := jsNumOr envStyle 0
    speakerBoost := envSpeakerBoost == some "true" }

/-- The `default` record in the baseline environment (none of the
`DEFAULT_*` variables set). -/
def baselineVoiceDefault : VoiceSettingsDefault :=
  initVoiceSettings none none none none

/-- A caller-supplied settings object: each known field may be absent, and
`extra` holds any other fields of the object in order. -/
structure SettingsInput where
  stability : Option Rat
  similarityBoost : Option Rat
  style : Option Rat
  speakerBoost : Option Bool
  extra : List (String × JsValue)
  deriving DecidableEq, Repr

/-- The normalizer output: all four known fields populated, other fields
carried through. -/
structure ValidatedSettings where
  stability : Rat
  similarityBoost : Rat
  style : Rat
  speakerBoost : Bool
  extra : List (String × JsValue)
  deriving DecidableEq, Repr

/-- JavaScript `Math.max(a, b)` on numbers. -/
def jsMax (a b : Rat) : Rat := if a < b then b else a

/-- JavaScript `Math.min(a, b)` on numbers. -/
def jsMin (a b : Rat) : Rat := if a < b then a else b

/-- `Math.max(0, Math.min(1, x))`. -/
def clamp01 (x : Rat) : Rat := jsMax 0 (jsMin 1 x)

/-- `VoiceConfig.validateVoiceSettings`: spread the default record under the
caller object (`{...this.voiceSettings.default, ...settings}`), then clamp
the three numeric fields into `[0,1]` and coerce `speakerBoost` with
`Boolean(...)`. Fields not among the four are untouched by the mutations. -/
def validateVoiceSettings (dflt : VoiceSettingsDefault) (s : SettingsInput) :
    ValidatedSettings :=
  { stability := clamp01 (s.stability.getD dflt.stability)
    similarityBoost := clamp01 (s.similarityBoost.getD dflt.similarityBoost)
    style := clamp01 (s.style.getD dflt.style)
    speakerBoost := s.speakerBoost.getD dflt.speakerBoost
    extra := s.extra }

/-- Re-reading a normalizer output as a caller object: all four known
fields are present on it. -/
def ValidatedSettings.asInput (v : ValidatedSettings) : SettingsInput :=
  { stability := some v.stability
    similarityBoost := some v.similarityBoost
    style := some v.style
    speakerBoost := some v.speakerBoost
    extra := v.extra }

/-- An axios error response as read by the translator:
`error.response?.status` and `error.response?.data?.detail`. -/
structure ErrResponse where
  status : Option Nat
  detail : Option String
  deriving DecidableEq, Repr

/-- An axios error: an optional captured HTTP response plus the raw
`error.message`. -/
structure ApiError where
  response : Option ErrResponse
  message : String
  deriving DecidableEq, Repr

/-- `error.response?.status`. -/
def capturedStatus (e : ApiError) : Option Nat :=
  e.response.bind (fun r => r.status)

/-- `error.response?.data?.detail || error.message` (an empty detail string
is falsy in JavaScript and falls back to the raw message). -/
def capturedMessage (e : ApiError) : String :=
  match e.response.bind (fun r => r.detail) with
  | some d => if d = "" then e.message else d
  | none => e.message

/-- `VoiceProcessor.handleElevenLabsError`: the fixed status-to-message
lookup with `errorMap[status] || generic` fallback. -/
def handleElevenLabsError (e : ApiError) : String :=
  match capturedStatus e with
  | some 401 => "Invalid ElevenLabs API key"
  | some 402 => "ElevenLabs quota exceeded"
  | some 422 => "Invalid request: " ++ capturedMessage e
  | some 429 => "ElevenLabs rate limit exceeded"
  | some 500 => "ElevenLabs server error"
  | _ => "ElevenLabs API error: " ++ capturedMessage e

/-! ### The bounded dispatcher

State of `VoiceProcessor`: the FIFO `requestQueue` array, the
`activeRequests` map (task ids; generated ids are distinct, so a list of
ids models the map), the pending `setTimeout` callbacks (their delays, in
ms), plus two histories used to state properties: the order in which tasks
were moved from the queue to the active map (`dispatched`) and the
settlement log of resolved/rejected futures (`settled`, `true` = resolved
with the result of `execute`, `false` = rejected with its error). -/
structure DispState where
  pending : List Nat
  active : List Nat
  timers : List Nat
  dispatched : List Nat
  settled : List (Nat × Bool)
  deriving DecidableEq, Repr

/-- The freshly constructed `VoiceProcessor`. -/
def initState : DispState := ⟨[], [], [], [], []⟩

/-- `VoiceProcessor.processQueue`: return unless a slot is free and the
queue is non-empty; otherwise `shift()` the queue head into the active map
and start executing it (it stays in `active` until its settlement event). -/
def processQueue (maxC : Nat) (s : DispState) : DispState :=
  match s.pending with
  | [] => s
  | r :: rest =>
    if maxC ≤ s.active.length then s
    else
      { s with pending := rest
               active := s.active ++ [r]
               dispatched := s.dispatched ++ [r] }

/-- `VoiceProcessor.queueRequest`: push the new task onto `requestQueue`
and invoke `processQueue` once, synchronously. It never rejects a
submission. -/
def queueRequest (maxC : Nat) (id : Nat) (s : DispState) : DispState :=
  processQueue maxC { s with pending := s.pending ++ [id] }

/-- The settlement of an in-flight task: `request.resolve(result)` or
`request.reject(error)` settles that task's future (recorded in `settled`),
then the `finally` block deletes it from `activeRequests` and schedules one
deferred `processQueue` via `setTimeout(..., 100)`. A settlement event for
a task that is not in flight does not occur and is a no-op. -/
def settleRequest (id : Nat) (ok : Bool) (s : DispState) : DispState :=
  if id ∈ s.active then
    { s with active := s.active.erase id
             settled := s.settled ++ [(id, ok)]
             timers := s.timers ++ [100] }
  else s

/-- A scheduled `setTimeout` callback fires: it runs `processQueue` once. -/
def fireTimer (maxC : Nat) (s : DispState) : DispState :=
  match s.timers with
  | [] => s
  | _ :: rest => processQueue maxC { s with timers := rest }

/-- Events of the single-threaded event loop that touch the dispatcher. -/
inductive QEvent where
  | enqueue (id : Nat)
  | complete (id : Nat) (ok : Bool)
  | timer
  deriving DecidableEq, Repr

/-- One scheduling turn. -/
def step (maxC : Nat) (s : DispState) : QEvent → DispState
  | QEvent.enqueue id => queueRequest maxC id s
  | QEvent.complete id ok => settleRequest id ok s
  | QEvent.timer => fireTimer maxC s

/-- Run a sequence of events from a given state. -/
def runFrom (maxC : Nat) (s : DispState) (evs : List QEvent) : DispState :=
  evs.foldl (step maxC) s

/-- Run a sequence of events from the initial state; every reachable state
of the dispatcher is `run maxC evs` for some event list. -/
def run (maxC : Nat) (evs : List QEvent) : DispState :=
  runFrom maxC initState evs

/-- The ids submitted by `queueRequest`, in arrival order. -/
def enqueuedIds : List QEvent → List Nat
  | [] => []
  | QEvent.enqueue id :: rest => id :: enqueuedIds rest
  | _ :: rest => enqueuedIds rest

/-- The scheduling-relevant part of the state: everything except the
settlement log. -/
def DispState.sched (s : DispState) :
    List Nat × List Nat × List Nat × List Nat :=
  (s.pending, s.active, s.timers, s.dispatched)

/-! ### Facts about the settings normalizer -/

lemma clamp01_nonneg (x : Rat) : 0 ≤ clamp01 x := by
  simp only [clamp01, jsMax, jsMin]
  split_ifs <;> linarith

lemma clamp01_le_one (x : Rat) : clamp01 x ≤ 1 := by
  simp only [clamp01, jsMax, jsMin]
  split_ifs <;> linarith

lemma clamp01_eq_self {y : Rat} (h0 : 0 ≤ y) (h1 : y ≤ 1) : clamp01 y = y := by
  simp only [clamp01, jsMax, jsMin]
  split_ifs <;> linarith

lemma clamp01_idem (x : Rat) : clamp01 (clamp01 x) = clamp01 x :=
  clamp01_eq_self (clamp01_nonneg x) (clamp01_le_one x)

/-- Claim C4 (counterexample): on the all-absent settings object, in the
baseline environment, the normalizer fills `speakerBoost` with `false`,
refuting the claimed fixed baseline `speakerBoost = true`. -/
theorem speakerBoost_default_counterexample :
    (validateVoiceSettings baselineVoiceDefault
      { stability := none, similarityBoost := none, style := none,
        speakerBoost := none, extra := [] }).speakerBoost ≠ true := by
  decide

/-- Claim C4 (amended): each missing numeric field is filled with the
fixed baseline 0.5 / 0.5 / 0.0; a missing `speakerBoost` is filled with
the configured default, which is `false` in the baseline environment and
`true` exactly when `DEFAULT_SPEAKER_BOOST` is set to the string
`"true"`. -/
theorem settings_default_fill (s : SettingsInput) (e1 e2 e3 : Option Rat) :
    (s.stability = none →
      (validateVoiceSettings baselineVoiceDefault s).stability = mkRat 1 2) ∧
    (s.similarityBoost = none →
      (validateVoiceSettings baselineVoiceDefault s).similarityBoost = mkRat 1 2) ∧
    (s.style = none →
      (validateVoiceSettings baselineVoiceDefault s).style = 0) ∧
    (s.speakerBoost = none →
      (validateVoiceSettings baselineVoiceDefault s).speakerBoost = false) ∧
    (s.speakerBoost = none →
      (validateVoiceSettings (initVoiceSettings e1 e2 e3 (some "true")) s).speakerBoost
        = true) := by
  refine ⟨fun h => ?_, fun h => ?_, fun h => ?_, fun h => ?_, fun h => ?_⟩ <;>
    simp [validateVoiceSettings, h, baselineVoiceDefault, initVoiceSettings,
      jsNumOr] <;> decide

/-- Witness for the amended C4, at the all-absent settings object. -/
theorem settings_default_fill_witness :
    (validateVoiceSettings baselineVoiceDefault
      { stability := none, similarityBoost := none, style := none,
        speakerBoost := none, extra := [] }).stability = mkRat 1 2 ∧
    (validateVoiceSettings baselineVoiceDefault
      { stability := none, similarityBoost := none, style := none,
        speakerBoost := none, extra := [] }).similarityBoost = mkRat 1 2 ∧
    (validateVoiceSettings baselineVoiceDefault
      { stability := none, similarityBoost := none, style := none,
        speakerBoost := none, extra := [] }).style = 0 ∧
    (validateVoiceSettings baselineVoiceDefault
      { stability := none, similarityBoost := none, style := none,
        speakerBoost := none, extra := [] }).speakerBoost = false ∧
    (validateVoiceSettings (initVoiceSettings none none none (some "true"))
      { stability := none, similarityBoost := none, style := none,
        speakerBoost := none, extra := [] }).speakerBoost = true :=
  ⟨(settings_default_fill ⟨none, none, none, none, []⟩ none none none).1 rfl,
   (settings_default_fill ⟨none, none, none, none, []⟩ none none none).2.1 rfl,
   (settings_default_fill ⟨none, none, none, none, []⟩ none none none).2.2.1 rfl,
   (settings_default_fill ⟨none, none, none, none, []⟩ none none none).2.2.2.1 rfl,
   (settings_default_fill ⟨none, none, none, none, []⟩ none none none).2.2.2.2 rfl⟩

/-- Claim C5: the normalizer output always has its three numeric fields in
`[0, 1]`; in particular input stability 3/2 normalizes to 1 and input
stability -1/5 normalizes to 0. -/
theorem settings_clamped_in_range (dflt : VoiceSettingsDefault)
    (s : SettingsInput) :
    (0 ≤ (validateVoiceSettings dflt s).stability ∧
      (validateVoiceSettings dflt s).stability ≤ 1) ∧
    (0 ≤ (validateVoiceSettings dflt s).similarityBoost ∧
      (validateVoiceSettings dflt s).similarityBoost ≤ 1) ∧
    (0 ≤ (validateVoiceSettings dflt s).style ∧
      (validateVoiceSettings dflt s).style ≤ 1) ∧
    (validateVoiceSettings baselineVoiceDefault
      { stability := some (mkRat 3 2), similarityBoost := none, style := none,
        speakerBoost := none, extra := [] }).stability = 1 ∧
    (validateVoiceSettings baselineVoiceDefault
      { stability := some (-(mkRat 1 5)), similarityBoost := none, style := none,
        speakerBoost := none, extra := [] }).stability = 0 :=
  ⟨⟨clamp01_nonneg _, clamp01_le_one _⟩,
   ⟨clamp01_nonneg _, clamp01_le_one _⟩,
   ⟨clamp01_nonneg _, clamp01_le_one _⟩,
   by decide, by decide⟩

/-- Claim C8: the normalizer is idempotent: normalizing its own output
(read back as a settings object) reproduces that output. -/
theorem settings_normalization_idempotent (dflt : VoiceSettingsDefault)
    (s : SettingsInput) :
    validateVoiceSettings dflt
        (ValidatedSettings.asInput (validateVoiceSettings dflt s)) =
      validateVoiceSettings dflt s := by
  simp [validateVoiceSettings, ValidatedSettings.asInput, clamp01_idem]

/-- Claim C10: fields other than the four known ones are carried through
the normalizer unchanged. -/
theorem settings_extra_fields_preserved (dflt : VoiceSettingsDefault)
    (s : SettingsInput) :
    (validateVoiceSettings dflt s).extra = s.extra := rfl

/-! ### Facts about the error translator -/

/-- Claim C6: the translator is a fixed function of the captured status
and detail: 401, 402, 422, 429 and 500 map to their fixed messages (422
carrying the provider detail), while an unmapped status such as 999, or a
failure with no captured status, maps to the generic fallback carrying the
detail or the raw error message. -/
theorem error_translation_table (d m : String) (r : Option ErrResponse) :
    handleElevenLabsError ⟨some ⟨some 401, some d⟩, m⟩ =
      "Invalid ElevenLabs API key" ∧
    handleElevenLabsError ⟨some ⟨some 402, some d⟩, m⟩ =
      "ElevenLabs quota exceeded" ∧
    handleElevenLabsError ⟨some ⟨some 422, some d⟩, m⟩ =
      "Invalid request: " ++ (if d = "" then m else d) ∧
    handleElevenLabsError ⟨some ⟨some 429, some d⟩, m⟩ =
      "ElevenLabs rate limit exceeded" ∧
    handleElevenLabsError ⟨some ⟨some 500, some d⟩, m⟩ =
      "ElevenLabs server error" ∧
    handleElevenLabsError ⟨some ⟨some 999, some d⟩, m⟩ =
      "ElevenLabs API error: " ++ (if d = "" then m else d) ∧
    (capturedStatus ⟨r, m⟩ = none →
      handleElevenLabsError ⟨r, m⟩ =
        "ElevenLabs API error: " ++ capturedMessage ⟨r, m⟩) :=
  ⟨rfl, rfl, rfl, rfl, rfl, rfl, fun h => by
    simp [handleElevenLabsError, h]⟩

/-- Witness for C6 at a failure with no captured response at all. -/
theorem error_translation_table_witness :
    handleElevenLabsError ⟨none, "boom"⟩ =
      "ElevenLabs API error: " ++ capturedMessage ⟨none, "boom"⟩ :=
  (error_translation_table "detail" "boom" none).2.2.2.2.2.2 rfl

/-! ### The concurrency bound (C1) -/

lemma processQueue_active_length (maxC : Nat) (s : DispState)
    (h : s.active.length ≤ maxC) :
    (processQueue maxC s).active.length ≤ maxC := by
  cases hp : s.pending with
  | nil => simpa [processQueue, hp] using h
  | cons r rest =>
    by_cases hc : maxC ≤ s.active.length
    · simpa [processQueue, hp, hc] using h
    · simp only [processQueue, hp, hc, if_false]
      simp only [List.length_append, List.length_cons, List.length_nil]
      omega

lemma step_active_length (maxC : Nat) (s : DispState) (e : QEvent)
    (h : s.active.length ≤ maxC) :
    (step maxC s e).active.length ≤ maxC := by
  cases e with
  | enqueue id =>
    exact processQueue_active_length maxC { s with pending := s.pending ++ [id] } h
  | complete id ok =>
    show (settleRequest id ok s).active.length ≤ maxC
    unfold settleRequest
    split
    · exact le_trans (List.Sublist.length_le (List.erase_sublist id s.active)) h
    · exact h
  | timer =>
    cases ht : s.timers with
    | nil => simpa [step, fireTimer, ht] using h
    | cons d rest =>
      simp only [step, fireTimer, ht]
      exact processQueue_active_length maxC { s with timers := rest } h

lemma runFrom_active_length (maxC : Nat) (evs : List QEvent) (s : DispState)
    (h : s.active.length ≤ maxC) :
    (runFrom maxC s evs).active.length ≤ maxC := by
  induction evs generalizing s with
  | nil => exact h
  | cons e rest ih => exact ih (step maxC s e) (step_active_length maxC s e h)

/-- Claim C1: for every event sequence (hence in every reachable state of
the dispatcher) the number of in-flight tasks never exceeds the configured
maximum concurrency. -/
theorem dispatcher_active_le_maxConcurrent (maxC : Nat) (evs : List QEvent) :
    (run maxC evs).active.length ≤ maxC :=
  runFrom_active_length maxC evs initState (Nat.zero_le maxC)

/-! ### FIFO dispatch order (C2) -/

lemma enqueuedIds_append (l1 l2 : List QEvent) :
    enqueuedIds (l1 ++ l2) = enqueuedIds l1 ++ enqueuedIds l2 := by
  induction l1 with
  | nil => rfl
  | cons e rest ih => cases e <;> simp [enqueuedIds, ih]

lemma processQueue_dispatched_pending (maxC : Nat) (s : DispState) :
    (processQueue maxC s).dispatched ++ (processQueue maxC s).pending =
      s.dispatched ++ s.pending := by
  cases hp : s.pending with
  | nil => simp [processQueue, hp]
  | cons r rest =>
    by_cases hc : maxC ≤ s.active.length
    · simp [processQueue, hp, hc]
    · simp [processQueue, hp, hc]

lemma step_dispatched_pending (maxC : Nat) (s : DispState) (e : QEvent) :
    (step maxC s e).dispatched ++ (step maxC s e).pending =
      s.dispatched ++ (s.pending ++ enqueuedIds [e]) := by
  cases e with
  | enqueue id =>
    have h := processQueue_dispatched_pending maxC
      { s with pending := s.pending ++ [id] }
    simpa [step, queueRequest, enqueuedIds] using h
  | complete id ok =>
    show (settleRequest id ok s).dispatched ++ (settleRequest id ok s).pending = _
    unfold settleRequest
    split <;> simp [enqueuedIds]
  | timer =>
    cases ht : s.timers with
    | nil => simp [step, fireTimer, ht, enqueuedIds]
    | cons d rest =>
      have h := processQueue_dispatched_pending maxC { s with timers := rest }
      simpa [step, fireTimer, ht, enqueuedIds] using h

lemma runFrom_dispatched_pending (maxC : Nat) (evs : List QEvent)
    (s : DispState) :
    (runFrom maxC s evs).dispatched ++ (runFrom maxC s evs).pending =
      s.dispatched ++ (s.pending ++ enqueuedIds evs) := by
  induction evs generalizing s with
  | nil => simp [runFrom, enqueuedIds]
  | cons e rest ih =>
    have h1 := step_dispatched_pending maxC s e
    have h2 := ih (step maxC s e)
    have hcons : runFrom maxC s (e :: rest) = runFrom maxC (step maxC s e) rest := rfl
    rw [hcons, h2, ← List.append_assoc, h1]
    rw [show (e :: rest) = [e] ++ rest from rfl, enqueuedIds_append]
    simp [List.append_assoc]

/-- Claim C2: in every reachable state the tasks dispatched so far followed
by the still-pending queue is exactly the arrival order, so the pending
queue is consumed in FIFO order; consequently, of two tasks that were both
dispatched, the one enqueued strictly earlier was dispatched strictly
earlier. -/
theorem dispatcher_fifo_order (maxC : Nat) (evs : List QEvent) :
    (run maxC evs).dispatched ++ (run maxC evs).pending = enqueuedIds evs ∧
    (∀ a b : Nat,
      a ∈ (run maxC evs).dispatched → b ∈ (run maxC evs).dispatched →
      List.indexOf a (enqueuedIds evs) < List.indexOf b (enqueuedIds evs) →
      List.indexOf a ((run maxC evs).dispatched) <
        List.indexOf b ((run maxC evs).dispatched)) := by
  have hmain : (run maxC evs).dispatched ++ (run maxC evs).pending =
      enqueuedIds evs := by
    simpa [initState] using runFrom_dispatched_pending maxC evs initState
  refine ⟨hmain, fun a b ha hb hab => ?_⟩
  rw [← hmain, List.indexOf_append_of_mem ha,
    List.indexOf_append_of_mem hb] at hab
  exact hab

/-- Witness for C2: with one slot, task 1 enqueued before task 2 is
dispatched before it. -/
theorem dispatcher_fifo_order_witness :
    List.indexOf 1 ((run 1 [QEvent.enqueue 1, QEvent.enqueue 2,
        QEvent.complete 1 true, QEvent.timer]).dispatched) <
      List.indexOf 2 ((run 1 [QEvent.enqueue 1, QEvent.enqueue 2,
        QEvent.complete 1 true, QEvent.timer]).dispatched) :=
  (dispatcher_fifo_order 1 [QEvent.enqueue 1, QEvent.enqueue 2,
      QEvent.complete 1 true, QEvent.timer]).2 1 2
    (by decide) (by decide) (by decide)

/-! ### Failure isolation (C3) -/

lemma processQueue_sched_congr (maxC : Nat) (p a t d : List Nat)
    (st1 st2 : List (Nat × Bool)) :
    (processQueue maxC ⟨p, a, t, d, st1⟩).sched =
      (processQueue maxC ⟨p, a, t, d, st2⟩).sched := by
  cases p with
  | nil => rfl
  | cons r rest =>
    by_cases hc : maxC ≤ a.length <;> simp [processQueue, hc, DispState.sched]

lemma settleRequest_sched_congr (id : Nat) (ok1 ok2 : Bool)
    (p a t d : List Nat) (st1 st2 : List (Nat × Bool)) :
    (settleRequest id ok1 ⟨p, a, t, d, st1⟩).sched =
      (settleRequest id ok2 ⟨p, a, t, d, st2⟩).sched := by
  by_cases hmem : id ∈ a <;> simp [settleRequest, hmem, DispState.sched]

lemma fireTimer_sched_congr (maxC : Nat) (p a t d : List Nat)
    (st1 st2 : List (Nat × Bool)) :
    (fireTimer maxC ⟨p, a, t, d, st1⟩).sched =
      (fireTimer maxC ⟨p, a, t, d, st2⟩).sched := by
  cases t with
  | nil => rfl
  | cons x rest => exact processQueue_sched_congr maxC p a rest d st1 st2

lemma step_sched_congr (maxC : Nat) (e : QEvent) (p a t d : List Nat)
    (st1 st2 : List (Nat × Bool)) :
    (step maxC ⟨p, a, t, d, st1⟩ e).sched =
      (step maxC ⟨p, a, t, d, st2⟩ e).sched := by
  cases e with
  | enqueue id => exact processQueue_sched_congr maxC (p ++ [id]) a t d st1 st2
  | complete id ok => exact settleRequest_sched_congr id ok ok p a t d st1 st2
  | timer => exact fireTimer_sched_congr maxC p a t d st1 st2

lemma runFrom_sched_congr (maxC : Nat) (evs : List QEvent) {s t : DispState}
    (h : s.sched = t.sched) :
    (runFrom maxC s evs).sched = (runFrom maxC t evs).sched := by
  induction evs generalizing s t with
  | nil => exact h
  | cons e rest ih =>
    apply ih
    obtain ⟨p, a, tm, d, st1⟩ := s
    obtain ⟨q, b, tn, c, st2⟩ := t
    simp only [DispState.sched, Prod.mk.injEq] at h
    obtain ⟨h1, h2, h3, h4⟩ := h
    subst h1; subst h2; subst h3; subst h4
    exact step_sched_congr maxC e p a tm d st1 st2

/-- Claim C3: a failing execute settles only that task's own future (it is
the sole addition to the settlement log), the task is removed from the
active set, no other task's state is touched, and the scheduling of the
whole rest of the run (pending queue, active set, timers, dispatch order)
is identical to what it would have been had the task succeeded — so
subsequently enqueued tasks dispatch exactly as they would normally. -/
theorem dispatcher_failure_isolation (maxC id : Nat) (s : DispState)
    (evs : List QEvent) :
    (settleRequest id false s).settled =
      (if id ∈ s.active then s.settled ++ [(id, false)] else s.settled) ∧
    (settleRequest id false s).active =
      (if id ∈ s.active then s.active.erase id else s.active) ∧
    (settleRequest id false s).pending = s.pending ∧
    (runFrom maxC (settleRequest id false s) evs).sched =
      (runFrom maxC (settleRequest id true s) evs).sched := by
  refine ⟨?_, ?_, ?_, ?_⟩
  · by_cases hmem : id ∈ s.active <;> simp [settleRequest, hmem]
  · by_cases hmem : id ∈ s.active <;> simp [settleRequest, hmem]
  · by_cases hmem : id ∈ s.active <;> simp [settleRequest, hmem]
  · apply runFrom_sched_congr
    obtain ⟨p, a, tm, d, st⟩ := s
    exact settleRequest_sched_congr id false true p a tm d st st

/-! ### No task is lost, no failure swallowed (C7) -/

lemma queueRequest_mem (maxC id : Nat) (s : DispState) :
    id ∈ (queueRequest maxC id s).pending ∨
      id ∈ (queueRequest maxC id s).active := by
  unfold queueRequest
  cases hp : s.pending with
  | nil =>
    by_cases hc : maxC ≤ s.active.length
    · left; simp [processQueue, hp, hc]
    · right; simp [processQueue, hp, hc]
  | cons q qs =>
    by_cases hc : maxC ≤ s.active.length
    · left; simp [processQueue, hp, hc]
    · left; simp [processQueue, hp, hc]

lemma processQueue_perm (maxC : Nat) (s : DispState)
    (h : s.dispatched.Perm (s.active ++ s.settled.map Prod.fst)) :
    (processQueue maxC s).dispatched.Perm
      ((processQueue maxC s).active ++
        (processQueue maxC s).settled.map Prod.fst) := by
  cases hp : s.pending with
  | nil => simpa [processQueue, hp] using h
  | cons r rest =>
    by_cases hc : maxC ≤ s.active.length
    · simpa [processQueue, hp, hc] using h
    · simp only [processQueue, hp, hc, if_false]
      have h1 : (s.dispatched ++ [r]).Perm
          ((s.active ++ s.settled.map Prod.fst) ++ [r]) := h.append_right [r]
      have h2 : ((s.active ++ s.settled.map Prod.fst) ++ [r]).Perm
          ((s.active ++ [r]) ++ s.settled.map Prod.fst) := by
        rw [List.append_assoc, List.append_assoc]
        exact List.Perm.append_left s.active List.perm_append_comm
      exact h1.trans h2

lemma settleRequest_perm (id : Nat) (ok : Bool) (s : DispState)
    (h : s.dispatched.Perm (s.active ++ s.settled.map Prod.fst)) :
    (settleRequest id ok s).dispatched.Perm
      ((settleRequest id ok s).active ++
        (settleRequest id ok s).settled.map Prod.fst) := by
  by_cases hmem : id ∈ s.active
  · simp only [settleRequest, hmem, if_true]
    have hmap : (s.settled ++ [(id, ok)]).map Prod.fst =
        s.settled.map Prod.fst ++ [id] := by simp
    rw [hmap]
    have p2 : (s.active ++ s.settled.map Prod.fst).Perm
        (id :: (s.active.erase id ++ s.settled.map Prod.fst)) :=
      (List.perm_cons_erase hmem).append_right (s.settled.map Prod.fst)
    have p3 : (id :: (s.active.erase id ++ s.settled.map Prod.fst)).Perm
        (s.active.erase id ++ id :: s.settled.map Prod.fst) :=
      List.perm_middle.symm
    have p4 : (s.active.erase id ++ id :: s.settled.map Prod.fst).Perm
        (s.active.erase id ++ (s.settled.map Prod.fst ++ [id])) :=
      List.Perm.append_left (s.active.erase id)
        (@List.perm_append_comm _ [id] (s.settled.map Prod.fst))
    exact h.trans (p2.trans (p3.trans p4))
  · simpa [settleRequest, hmem] using h

lemma step_perm (maxC : Nat) (s : DispState) (e : QEvent)
    (h : s.dispatched.Perm (s.active ++ s.settled.map Prod.fst)) :
    (step maxC s e).dispatched.Perm
      ((step maxC s e).active ++ (step maxC s e).settled.map Prod.fst) := by
  cases e with
  | enqueue id =>
    exact processQueue_perm maxC { s with pending := s.pending ++ [id] } h
  | complete id ok => exact settleRequest_perm id ok s h
  | timer =>
    cases ht : s.timers with
    | nil => simpa [step, fireTimer, ht] using h
    | cons x rest =>
      simp only [step, fireTimer, ht]
      exact processQueue_perm maxC { s with timers := rest } h

lemma runFrom_perm (maxC : Nat) (evs : List QEvent) (s : DispState)
    (h : s.dispatched.Perm (s.active ++ s.settled.map Prod.fst)) :
    (runFrom maxC s evs).dispatched.Perm
      ((runFrom maxC s evs).active ++
        (runFrom maxC s evs).settled.map Prod.fst) := by
  induction evs generalizing s with
  | nil => exact h
  | cons e rest ih => exact ih (step maxC s e) (step_perm maxC s e h)

/-- Claim C7: an enqueue is always accepted (right after its `queueRequest`
step the task sits in the pending queue or already in the active set), and
the dispatcher never swallows a task: in every reachable state the arrival
list is a permutation of pending ++ active ++ settled futures, and once
the queue has drained every enqueued task's future has been settled with
its own result or error. -/
theorem dispatcher_never_drops (maxC : Nat) (evs : List QEvent) (id : Nat) :
    (id ∈ (queueRequest maxC id (run maxC evs)).pending ∨
      id ∈ (queueRequest maxC id (run maxC evs)).active) ∧
    (enqueuedIds evs).Perm
      ((run maxC evs).pending ++ ((run maxC evs).active ++
        (run maxC evs).settled.map Prod.fst)) ∧
    ((run maxC evs).pending = [] → (run maxC evs).active = [] →
      ((run maxC evs).settled.map Prod.fst).Perm (enqueuedIds evs)) := by
  have hmain : (run maxC evs).dispatched ++ (run maxC evs).pending =
      enqueuedIds evs := by
    simpa [initState] using runFrom_dispatched_pending maxC evs initState
  have hperm : (run maxC evs).dispatched.Perm
      ((run maxC evs).active ++ (run maxC evs).settled.map Prod.fst) :=
    runFrom_perm maxC evs initState (List.Perm.refl _)
  have hconserve : (enqueuedIds evs).Perm
      ((run maxC evs).pending ++ ((run maxC evs).active ++
        (run maxC evs).settled.map Prod.fst)) := by
    rw [← hmain]
    exact (hperm.append_right (run maxC evs).pending).trans
      List.perm_append_comm
  refine ⟨queueRequest_mem maxC id (run maxC evs), hconserve, fun h1 h2 => ?_⟩
  have := hconserve
  rw [h1, h2] at this
  simpa using this.symm

/-- Witness for C7: a drained run of five events with two slots settles
all three enqueued futures. -/
theorem dispatcher_never_drops_witness :
    ((run 2 [QEvent.enqueue 1, QEvent.enqueue 2, QEvent.enqueue 3,
        QEvent.complete 1 true, QEvent.timer, QEvent.complete 2 false,
        QEvent.timer, QEvent.complete 3 true]).settled.map Prod.fst).Perm
      (enqueuedIds [QEvent.enqueue 1, QEvent.enqueue 2, QEvent.enqueue 3,
        QEvent.complete 1 true, QEvent.timer, QEvent.complete 2 false,
        QEvent.timer, QEvent.complete 3 true]) :=
  (dispatcher_never_drops 2 [QEvent.enqueue 1, QEvent.enqueue 2,
      QEvent.enqueue 3, QEvent.complete 1 true, QEvent.timer,
      QEvent.complete 2 false, QEvent.timer, QEvent.complete 3 true] 7).2.2
    (by decide) (by decide)

/-! ### Deferred re-dispatch on settlement (C9) -/

/-- Claim C9: the settlement of a task removes it from the active set and
schedules exactly one deferred 100 ms callback; it performs no dispatch
itself (pending queue and dispatch history are untouched, so there is no
immediate or recursive re-invocation), and the deferred callback, when it
fires, is exactly one `processQueue` attempt to fill the freed slot. -/
theorem settlement_defers_redispatch (maxC id : Nat) (ok : Bool)
    (s : DispState) :
    (settleRequest id ok s).pending = s.pending ∧
    (settleRequest id ok s).dispatched = s.dispatched ∧
    (settleRequest id ok s).timers =
      (if id ∈ s.active then s.timers ++ [100] else s.timers) ∧
    (settleRequest id ok s).active =
      (if id ∈ s.active then s.active.erase id else s.active) ∧
    (∀ delay rest, s.timers = delay :: rest →
      fireTimer maxC s = processQueue maxC { s with timers := rest }) := by
  refine ⟨?_, ?_, ?_, ?_, fun delay rest ht => ?_⟩
  · by_cases hmem : id ∈ s.active <;> simp [settleRequest, hmem]
  · by_cases hmem : id ∈ s.active <;> simp [settleRequest, hmem]
  · by_cases hmem : id ∈ s.active <;> simp [settleRequest, hmem]
  · by_cases hmem : id ∈ s.active <;> simp [settleRequest, hmem]
  · simp [fireTimer, ht]

/-- Witness for C9: firing the single scheduled callback runs exactly one
`processQueue`. -/
theorem settlement_defers_redispatch_witness :
    fireTimer 1 ⟨[], [], [100], [], []⟩ = processQueue 1 ⟨[], [], [], [], []⟩ :=
  (settlement_defers_redispatch 1 1 true ⟨[], [], [100], [], []⟩).2.2.2.2
    100 [] rfl

end EquityVoice
